import Mathlib

/-!
Shallow embedding of `src/server/handler.py` (the "two cent stories"
submission backend) and proofs about its behaviour.

Modelling conventions:
* The Elasticsearch index is an association list `Store := List (SubmissionId × Record)`;
  `ES_DB.get` is first-match lookup, `ES_DB.update` a field merge on the matching
  document, `ES_DB.delete` physical removal, `ES_DB.count` on `emailClean.keyword`
  an exact-match count.
* Python strings are Lean `String`s; the string manipulations of the handler
  (`lower`, `split`, `replace`, `split("+")[0]`) are carried out on the underlying
  character list so that they can be reasoned about.  `str.lower` is modelled by
  `Char.toLower`, which lowers exactly the ASCII letters.
* `int(...)` parsing of query parameters is modelled by `pyInt?`
  (canonical decimal representations, optionally signed); `None` and
  non-numeric strings fail to parse, as in the Python `try/except`.
* Random values (`secrets.token_urlsafe`), clock reads (`datetime.now`) and the
  store-assigned document id are passed in as explicit parameters.
* A Python "falsy" check `if not x` on an optional string is `pyFalsy`.
* An uncaught Python exception (e.g. the `IndexError` of `clean_email` on an
  address without "@") is modelled by the handler returning `none`.
-/

set_option autoImplicit false

namespace TwoCent

/-- Python `s.split(sep)` for a one-character separator, on character lists:
splitting the empty string gives one empty group, and every separator
occurrence opens a new group. -/
def splitOnChar (sep : Char) : List Char → List (List Char)
  | [] => [[]]
  | c :: cs =>
    if c = sep then [] :: splitOnChar sep cs
    else
      match splitOnChar sep cs with
      | [] => [[c]]
      | g :: gs => (c :: g) :: gs

/-- Model of `clean_email` of handler.py:
`parts = email.lower().split("@")`,
`return parts[0].replace(".", "").split("+")[0] + "@" + parts[1]`.
Accessing `parts[1]` raises `IndexError` when the address has no "@";
that fault is the `none` result. -/
def clean_email (email : String) : Option String :=
  match splitOnChar '@' (email.toList.map Char.toLower) with
  | p0 :: p1 :: _ =>
    some (String.mk (((p0.filter (· != '.')).takeWhile (· != '+')) ++ '@' :: p1))
  | _ => none

/-- The untyped JSON body of a create request: `{name, debt, story, email}`. -/
structure Submission where
  name : String
  debt : Int
  story : String
  email : String
deriving Repr, DecidableEq

/-- A stored submission document.  `tokenVerify`/`tokenDelete` are `none` for
Python `None`; `verifiedDate` is `none` while the field is absent. -/
structure Record where
  name : String
  firstName : String
  debt : Int
  story : String
  email : String
  emailClean : String
  createdDate : Nat
  tokenVerify : Option String
  tokenDelete : Option String
  verifiedDate : Option Nat
deriving Repr, DecidableEq

/-- Model of `create_submission_record` of handler.py.  The two freshly generated
random tokens and the clock reading are parameters.  `firstName` is
`name.split(" ")[0]`, i.e. the characters before the first space.
The `IndexError` of `clean_email` propagates as `none`. -/
def create_submission_record (sub : Submission) (tokV tokD : String) (now : Nat) :
    Option Record :=
  (clean_email sub.email).map fun ec =>
    { name := sub.name
      firstName := String.mk (sub.name.toList.takeWhile (· != ' '))
      debt := sub.debt
      story := sub.story
      email := sub.email
      emailClean := ec
      createdDate := now
      tokenVerify := some tokV
      tokenDelete := some tokD
      verifiedDate := none }

/-- Model of `mark_verified` of handler.py: `{**submission, "tokenVerify": None,
"verifiedDate": now}`. -/
def mark_verified (r : Record) (now : Nat) : Record :=
  { r with tokenVerify := none, verifiedDate := some now }

abbrev SubmissionId := String

/-- The `submissions` index, as a list of (document id, document) pairs. -/
abbrev Store := List (SubmissionId × Record)

/-- Model of `ES_DB.get(index, id)`: first document with the given id, if any. -/
def Store.get : Store → SubmissionId → Option Record
  | [], _ => none
  | p :: rest, id => if p.1 = id then some p.2 else Store.get rest id

/-- Model of `ES_DB.update(index, id, body={"doc": ...})`: merge fields into the
document with the given id. -/
def Store.update : Store → SubmissionId → (Record → Record) → Store
  | [], _, _ => []
  | p :: rest, id, f =>
    (if p.1 = id then (p.1, f p.2) else p) :: Store.update rest id f

/-- Model of `ES_DB.delete(index, id)`: physically remove the document. -/
def Store.erase : Store → SubmissionId → Store
  | [], _ => []
  | p :: rest, id =>
    if p.1 = id then Store.erase rest id else p :: Store.erase rest id

/-- Model of `ES_DB.count` with a `match` query on `emailClean.keyword`: the number of
stored documents whose `emailClean` equals the given value exactly. -/
def Store.countEmail (s : Store) (ec : String) : Nat :=
  (s.filter fun p => p.2.emailClean == ec).length

/-- An HTTP response: status code, optional `Location` header, body.  The
constant permissive CORS headers carried by every response are omitted. -/
structure Response where
  statusCode : Nat
  location : Option String
  body : String
deriving Repr, DecidableEq

/-- Python truthiness test `if not x` for an optional string: `None` and the
empty string are falsy. -/
def pyFalsy (o : Option String) : Bool :=
  (o.getD "").isEmpty

/-- Model of `verify_submission` of handler.py.  `uiHost` is the `UI_HOST` environment
value, `now` the clock reading used for `verifiedDate`.  Returns the response
together with the store after the request. -/
def verify_submission (uiHost : String) (store : Store)
    (submissionId token : Option String) (now : Nat) : Response × Store :=
  if pyFalsy submissionId then
    ({ statusCode := 400, location := none, body := "Submission id missing" }, store)
  else
    let sid := submissionId.getD ""
    if pyFalsy token then
      ({ statusCode := 400, location := none, body := "Token missing" }, store)
    else
      let tok := token.getD ""
      match Store.get store sid with
      | none =>
        ({ statusCode := 404, location := none, body := "Story not found" }, store)
      | some sub =>
        let redirectUrl := uiHost ++ "?verified=" ++ sid
        if pyFalsy sub.tokenVerify then
          ({ statusCode := 302, location := some redirectUrl,
             body := "Your story has already been verified! Thank you :)" }, store)
        else if tok != sub.tokenVerify.getD "" then
          ({ statusCode := 403, location := none,
             body := "Token: " ++ tok ++ " did not match" }, store)
        else
          ({ statusCode := 302, location := some redirectUrl,
             body := "Your story has been verified! Thank you :)" },
           Store.update store sid fun r =>
             { r with tokenVerify := none, verifiedDate := some now })

/-- Model of `delete_submission` of handler.py. -/
def delete_submission (store : Store)
    (submissionId token : Option String) : Response × Store :=
  if pyFalsy submissionId then
    ({ statusCode := 400, location := none, body := "Submission id missing" }, store)
  else
    let sid := submissionId.getD ""
    if pyFalsy token then
      ({ statusCode := 400, location := none, body := "Token missing" }, store)
    else
      let tok := token.getD ""
      match Store.get store sid with
      | none =>
        ({ statusCode := 404, location := none,
           body := "Story not found. Perhaps it has already been deleted!" }, store)
      | some sub =>
        if pyFalsy sub.tokenDelete then
          ({ statusCode := 200, location := none,
             body := "Your story has already been deleted! Thank you :)" }, store)
        else if tok != sub.tokenDelete.getD "" then
          ({ statusCode := 403, location := none,
             body := "Token: " ++ tok ++ " did not match" }, store)
        else
          ({ statusCode := 200, location := none,
             body := "Your story has been deleted!" }, Store.erase store sid)

/-- Model of `json.dumps({"id": x})`. -/
def jsonIdBody (id : String) : String :=
  "\x7b\"id\": \"" ++ id ++ "\"\x7d"

/-- Model of `post_submission` of handler.py.  `freshId` is the id the store assigns on
`ES_DB.index`.  The result carries the response, the store after the request
and whether the confirmation mail was sent; `none` is the uncaught fault of
`create_submission_record`. -/
def post_submission (store : Store) (sub : Submission) (tokV tokD : String)
    (now : Nat) (freshId : SubmissionId) : Option (Response × Store × Bool) :=
  (create_submission_record sub tokV tokD now).map fun record =>
    if Store.countEmail store record.emailClean ≠ 0 then
      ({ statusCode := 409, location := none,
                  body := "Your story has already been submitted. Please check your email :)" },
       store, false)
    else
      ({ statusCode := 200, location := none, body := jsonIdBody freshId },
       store ++ [(freshId, record)], true)

/-- Model of `post_verified_submission` of handler.py: create the record, mark it
verified, index it — with no duplicate-email check and no mail. -/
def post_verified_submission (store : Store) (sub : Submission) (tokV tokD : String)
    (now : Nat) (freshId : SubmissionId) : Option (Response × Store) :=
  (create_submission_record sub tokV tokD now).map fun record =>
    ({ statusCode := 200, location := none, body := jsonIdBody freshId },
     store ++ [(freshId, mark_verified record now)])

/-- A listed submission, projected to the `fields_to_output` of
`get_submissions`: `firstName`, `debt`, `story`, `verifiedDate`. -/
structure OutRec where
  firstName : String
  debt : Int
  story : String
  verifiedDate : Option Nat
deriving Repr, DecidableEq

/-- Projection of a stored document to the four output fields. -/
def projectOut (r : Record) : OutRec :=
  { firstName := r.firstName, debt := r.debt, story := r.story,
    verifiedDate := r.verifiedDate }

/-- A non-empty all-digit character list read as a decimal number. -/
def decDigits? (l : List Char) : Option Nat :=
  if l.isEmpty then none
  else if l.all Char.isDigit then
    some (l.foldl (fun n c => n * 10 + (c.toNat - '0'.toNat)) 0)
  else none

/-- Python `int(s)` on a canonical decimal representation: an optional sign
followed by digits; anything else raises `ValueError`, i.e. yields `none`. -/
def pyInt? (s : String) : Option Int :=
  match s.toList with
  | '-' :: rest => (decDigits? rest).map fun n => -(n : Int)
  | '+' :: rest => (decDigits? rest).map fun n => (n : Int)
  | l => (decDigits? l).map fun n => (n : Int)

/-- The `limit` query parameter: `int(...)` guarded by `assert 0 < limit < 200`,
any failure (absence, parse error, out of range) falling back to 90. -/
def parse_limit (q : Option String) : Nat :=
  match q.bind pyInt? with
  | some n => if 0 < n ∧ n < 200 then n.toNat else 90
  | none => 90

/-- The `from` query parameter: `int(...)` guarded by `assert 0 < from_ < 9600`,
any failure falling back to 0. -/
def parse_from (q : Option String) : Nat :=
  match q.bind pyInt? with
  | some n => if 0 < n ∧ n < 9600 then n.toNat else 0
  | none => 0

/-- The `include` query parameter: absent or empty means no override, otherwise
the comma-separated list truncated to its first 3 entries. -/
def parseInclude (q : Option String) : List SubmissionId :=
  match q with
  | none => []
  | some s =>
    if s.toList.isEmpty then []
    else ((splitOnChar ',' s.toList).map String.mk).take 3

/-- The documents matching the search query: those with a `verifiedDate`. -/
def verifiedRecords (store : Store) : Store :=
  store.filter fun p => p.2.verifiedDate.isSome

/-- Stable insertion of an element into a sorted list. -/
def insertSorted {α : Type} (le : α → α → Bool) (x : α) : List α → List α
  | [] => [x]
  | y :: ys => if le x y then x :: y :: ys else y :: insertSorted le x ys

/-- The search sort: `verifiedDate` descending, as a stable insertion sort
(stable sorts agree, so this models the store's sorted search output). -/
def sortByVerifiedDesc (l : Store) : Store :=
  l.foldr (insertSorted fun a b => b.2.verifiedDate.getD 0 ≤ a.2.verifiedDate.getD 0) []

/-- The window of hits returned by the search: matching documents, sorted,
offset by `from`, capped at `limit` entries. -/
def searchPage (store : Store) (limitQ fromQ : Option String) : Store :=
  ((sortByVerifiedDesc (verifiedRecords store)).drop (parse_from fromQ)).take
    (parse_limit limitQ)

/-- One step of the `include` override loop of `get_submissions`: skip an id
already seen, look the id up, skip it when not found, otherwise record the id
as seen and insert the projected document at position 0. -/
def includeStep (store : Store) (acc : List SubmissionId × List OutRec)
    (sid : SubmissionId) : List SubmissionId × List OutRec :=
  if sid ∈ acc.1 then acc
  else
    match Store.get store sid with
    | none => acc
    | some r => (sid :: acc.1, projectOut r :: acc.2)

/-- The body of the 200 response of `get_submissions`. -/
structure ListResult where
  statusCode : Nat
  submissions : List OutRec
  count_submissions : Nat
  total_debt : Int
deriving Repr, DecidableEq

/-- Model of `get_submissions` of handler.py: window the verified submissions, compute
the total count and the `debt` sum over the whole matching set, then run the
`include` override loop over the windowed page. -/
def get_submissions (store : Store) (limitQ fromQ includeQ : Option String) :
    ListResult :=
  let matching := verifiedRecords store
  let hits := searchPage store limitQ fromQ
  let submissions := hits.map fun p => projectOut p.2
  let submissions2 :=
    ((parseInclude includeQ).foldl (includeStep store)
      (hits.map (fun p => p.1), submissions)).2
  { statusCode := 200
    submissions := submissions2
    count_submissions := matching.length
    total_debt := (matching.map fun p => p.2.debt).sum }

/-! ### Store lemmas -/

theorem Store.get_update_self (s : Store) (id : SubmissionId) (f : Record → Record) :
    Store.get (Store.update s id f) id = (Store.get s id).map f := by
  induction s with
  | nil => rfl
  | cons p rest ih =>
    by_cases h : p.1 = id
    · simp [Store.get, Store.update, h]
    · simp [Store.get, Store.update, h, ih]

theorem Store.get_erase_self (s : Store) (id : SubmissionId) :
    Store.get (Store.erase s id) id = none := by
  induction s with
  | nil => rfl
  | cons p rest ih =>
    by_cases h : p.1 = id
    · simp [Store.erase, h, ih]
    · simp [Store.get, Store.erase, h, ih]

/-! ### Character lemmas: `Char.toLower` models Python `str.lower` on ASCII -/

theorem toNat_ofNat_of_valid (n : Nat) (h : n.isValidChar) :
    (Char.ofNat n).toNat = n := by
  simp [Char.ofNat, dif_pos h, Char.ofNatAux, Char.toNat, UInt32.toNat]

theorem toLower_eq_of_not_upper {c : Char} (h : ¬(65 ≤ c.toNat ∧ c.toNat ≤ 90)) :
    c.toLower = c := by
  simp only [Char.toLower]
  exact if_neg h

theorem toLower_eq_of_upper {c : Char} (h : 65 ≤ c.toNat ∧ c.toNat ≤ 90) :
    c.toLower = Char.ofNat (c.toNat + 32) := by
  simp only [Char.toLower]
  exact if_pos h

theorem toNat_toLower_of_upper {c : Char} (h : 65 ≤ c.toNat ∧ c.toNat ≤ 90) :
    c.toLower.toNat = c.toNat + 32 := by
  rw [toLower_eq_of_upper h, toNat_ofNat_of_valid _ (Or.inl (by omega))]

theorem toLower_idem (c : Char) : c.toLower.toLower = c.toLower := by
  by_cases h : 65 ≤ c.toNat ∧ c.toNat ≤ 90
  · exact toLower_eq_of_not_upper (by rw [toNat_toLower_of_upper h]; omega)
  · rw [toLower_eq_of_not_upper h]
    exact toLower_eq_of_not_upper h

theorem toLower_eq_at_iff {c : Char} : c.toLower = '@' ↔ c = '@' := by
  constructor
  · intro h
    by_cases hu : 65 ≤ c.toNat ∧ c.toNat ≤ 90
    · exfalso
      have h64 : c.toLower.toNat = 64 := by rw [h]; decide
      rw [toNat_toLower_of_upper hu] at h64
      omega
    · rwa [toLower_eq_of_not_upper hu] at h
  · intro h
    subst h
    decide

theorem mem_map_toLower_fixed {c : Char} {l : List Char}
    (h : c ∈ l.map Char.toLower) : c.toLower = c := by
  rcases List.mem_map.1 h with ⟨d, _, rfl⟩
  exact toLower_idem d

theorem map_id_of_mem {α : Type} {f : α → α} :
    ∀ {l : List α}, (∀ c ∈ l, f c = c) → l.map f = l
  | [], _ => rfl
  | c :: cs, h => by
    simp only [List.map_cons, h c (List.mem_cons_self c cs),
      map_id_of_mem fun d hd => h d (List.mem_cons_of_mem c hd)]

theorem mem_of_mem_takeWhile {α : Type} {p : α → Bool} :
    ∀ {l : List α} {c : α}, c ∈ l.takeWhile p → c ∈ l
  | a :: l, c, h => by
    rw [List.takeWhile_cons] at h
    by_cases hp : p a
    · rw [if_pos hp] at h
      rcases List.mem_cons.1 h with h | h
      · exact h ▸ List.mem_cons_self a l
      · exact List.mem_cons_of_mem a (mem_of_mem_takeWhile h)
    · rw [if_neg hp] at h
      cases h

/-! ### `splitOnChar` lemmas -/

theorem splitOnChar_ne_nil (sep : Char) (l : List Char) : splitOnChar sep l ≠ [] := by
  cases l with
  | nil => simp [splitOnChar]
  | cons c cs =>
    simp only [splitOnChar]
    by_cases h : c = sep
    · simp [h]
    · rw [if_neg h]
      cases splitOnChar sep cs <;> simp

theorem splitOnChar_sep_not_mem (sep : Char) :
    ∀ (l : List Char) (g : List Char), g ∈ splitOnChar sep l → sep ∉ g
  | [], g, hg => by
    simp only [splitOnChar, List.mem_singleton] at hg
    simp [hg]
  | c :: cs, g, hg => by
    simp only [splitOnChar] at hg
    by_cases h : c = sep
    · rw [if_pos h] at hg
      rcases List.mem_cons.1 hg with rfl | hg
      · simp
      · exact splitOnChar_sep_not_mem sep cs g hg
    · rw [if_neg h] at hg
      cases hsp : splitOnChar sep cs with
      | nil => exact absurd hsp (splitOnChar_ne_nil sep cs)
      | cons g0 gs =>
        rw [hsp] at hg
        rcases List.mem_cons.1 hg with rfl | hg
        · intro hmem
          rcases List.mem_cons.1 hmem with rfl | hmem
          · exact h rfl
          · exact splitOnChar_sep_not_mem sep cs g0 (hsp ▸ List.mem_cons_self g0 gs) hmem
        · exact splitOnChar_sep_not_mem sep cs g
            (hsp ▸ List.mem_cons_of_mem g0 hg)

theorem splitOnChar_mem_mem (sep : Char) :
    ∀ (l : List Char) (g : List Char), g ∈ splitOnChar sep l → ∀ c ∈ g, c ∈ l
  | [], g, hg => by
    simp only [splitOnChar, List.mem_singleton] at hg
    simp [hg]
  | a :: cs, g, hg => by
    simp only [splitOnChar] at hg
    by_cases h : a = sep
    · rw [if_pos h] at hg
      rcases List.mem_cons.1 hg with rfl | hg
      · simp
      · exact fun c hc =>
          List.mem_cons_of_mem a (splitOnChar_mem_mem sep cs g hg c hc)
    · rw [if_neg h] at hg
      cases hsp : splitOnChar sep cs with
      | nil => exact absurd hsp (splitOnChar_ne_nil sep cs)
      | cons g0 gs =>
        rw [hsp] at hg
        rcases List.mem_cons.1 hg with rfl | hg
        · intro c hc
          rcases List.mem_cons.1 hc with rfl | hc
          · exact List.mem_cons_self c cs
          · exact List.mem_cons_of_mem a
              (splitOnChar_mem_mem sep cs g0 (hsp ▸ List.mem_cons_self g0 gs) c hc)
        · exact fun c hc => List.mem_cons_of_mem a
            (splitOnChar_mem_mem sep cs g (hsp ▸ List.mem_cons_of_mem g0 hg) c hc)

theorem splitOnChar_eq_single {sep : Char} :
    ∀ {l : List Char}, sep ∉ l → splitOnChar sep l = [l]
  | [], _ => rfl
  | c :: cs, h => by
    have hc : ¬c = sep := fun hc => h (hc ▸ List.mem_cons_self c cs)
    have hcs : sep ∉ cs := fun hcs => h (List.mem_cons_of_mem c hcs)
    simp only [splitOnChar, if_neg hc, splitOnChar_eq_single hcs]

theorem splitOnChar_append {sep : Char} :
    ∀ {l₁ : List Char} (l₂ : List Char), sep ∉ l₁ →
      splitOnChar sep (l₁ ++ sep :: l₂) = l₁ :: splitOnChar sep l₂
  | [], l₂, _ => by simp [splitOnChar]
  | c :: cs, l₂, h => by
    have hc : ¬c = sep := fun hc => h (hc ▸ List.mem_cons_self c cs)
    have hcs : sep ∉ cs := fun hcs => h (List.mem_cons_of_mem c hcs)
    have ih := @splitOnChar_append sep cs l₂ hcs
    simp only [List.cons_append, splitOnChar, if_neg hc, List.append_eq, ih]

/-! ### `clean_email` idempotence -/

theorem clean_email_idem {e r : String} (h : clean_email e = some r) :
    clean_email r = some r := by
  unfold clean_email at h
  cases hsp : splitOnChar '@' (e.toList.map Char.toLower) with
  | nil => exact absurd hsp (splitOnChar_ne_nil _ _)
  | cons p0 ps =>
    cases ps with
    | nil =>
      rw [hsp] at h
      exact Option.noConfusion h
    | cons p1 rest =>
      rw [hsp] at h
      have hr : r =
          String.mk (((p0.filter (· != '.')).takeWhile (· != '+')) ++ '@' :: p1) :=
        (Option.some.inj h).symm
      set q := (p0.filter (· != '.')).takeWhile (· != '+') with hq
      have hp0mem : p0 ∈ splitOnChar '@' (e.toList.map Char.toLower) := by
        rw [hsp]; exact List.mem_cons_self _ _
      have hp1mem : p1 ∈ splitOnChar '@' (e.toList.map Char.toLower) := by
        rw [hsp]; exact List.mem_cons_of_mem _ (List.mem_cons_self _ _)
      have hqp0 : ∀ c ∈ q, c ∈ p0 := fun c hc =>
        (List.mem_filter.1 (mem_of_mem_takeWhile hc)).1
      have hqAt : '@' ∉ q := fun hc =>
        splitOnChar_sep_not_mem '@' _ p0 hp0mem (hqp0 _ hc)
      have hp1At : '@' ∉ p1 := splitOnChar_sep_not_mem '@' _ p1 hp1mem
      have hfix : ∀ c ∈ q ++ '@' :: p1, c.toLower = c := by
        intro c hc
        rcases List.mem_append.1 hc with hc | hc
        · exact mem_map_toLower_fixed
            (splitOnChar_mem_mem '@' _ p0 hp0mem c (hqp0 c hc))
        · rcases List.mem_cons.1 hc with rfl | hc
          · decide
          · exact mem_map_toLower_fixed
              (splitOnChar_mem_mem '@' _ p1 hp1mem c hc)
      have hqdot : q.filter (· != '.') = q :=
        List.filter_eq_self.mpr fun c hc =>
          (List.mem_filter.1 (mem_of_mem_takeWhile hc)).2
      have hqplus : q.takeWhile (· != '+') = q :=
        List.takeWhile_eq_self_iff.mpr fun c hc =>
          List.mem_takeWhile_imp (p := (· != '+')) (l := p0.filter (· != '.'))
            (x := c) hc
      subst hr
      unfold clean_email
      rw [show (String.mk (q ++ '@' :: p1)).toList = q ++ '@' :: p1 from rfl]
      rw [map_id_of_mem hfix, splitOnChar_append p1 hqAt,
        splitOnChar_eq_single hp1At]
      simp only [hqdot, hqplus]

/-! ### The `include` override loop -/

/-- First-occurrence deduplication against an initial set of already-seen ids. -/
def dedupKeepFirst : List SubmissionId → List SubmissionId → List SubmissionId
  | _, [] => []
  | seen, x :: xs =>
    if x ∈ seen then dedupKeepFirst seen xs
    else x :: dedupKeepFirst (x :: seen) xs

theorem filterMap_dedupKeepFirst_congr {F : SubmissionId → Option OutRec} :
    ∀ (l s₁ s₂ : List SubmissionId),
      (∀ x, (F x).isSome → (x ∈ s₁ ↔ x ∈ s₂)) →
      (dedupKeepFirst s₁ l).filterMap F = (dedupKeepFirst s₂ l).filterMap F
  | [], _, _, _ => rfl
  | x :: xs, s₁, s₂, hmem => by
    have hext : ∀ y, (F y).isSome → (y ∈ x :: s₁ ↔ y ∈ x :: s₂) := by
      intro y hy
      simp [List.mem_cons, hmem y hy]
    cases hFx : F x with
    | some b =>
      have hx : (F x).isSome := by simp [hFx]
      by_cases h1 : x ∈ s₁
      · have h2 : x ∈ s₂ := (hmem x hx).1 h1
        simp only [dedupKeepFirst, if_pos h1, if_pos h2]
        exact filterMap_dedupKeepFirst_congr xs s₁ s₂ hmem
      · have h2 : x ∉ s₂ := fun h => h1 ((hmem x hx).2 h)
        simp only [dedupKeepFirst, if_neg h1, if_neg h2, List.filterMap_cons, hFx]
        exact congrArg (b :: ·)
          (filterMap_dedupKeepFirst_congr xs (x :: s₁) (x :: s₂) hext)
    | none =>
      have hne : ∀ y, (F y).isSome → ¬y = x := by
        intro y hy hyx
        rw [hyx, hFx] at hy
        exact Bool.noConfusion hy
      by_cases h1 : x ∈ s₁ <;> by_cases h2 : x ∈ s₂
      · simp only [dedupKeepFirst, if_pos h1, if_pos h2]
        exact filterMap_dedupKeepFirst_congr xs s₁ s₂ hmem
      · simp only [dedupKeepFirst, if_pos h1, if_neg h2, List.filterMap_cons, hFx]
        exact filterMap_dedupKeepFirst_congr xs s₁ (x :: s₂) fun y hy => by
          simp [List.mem_cons, hne y hy, hmem y hy]
      · simp only [dedupKeepFirst, if_neg h1, if_pos h2, List.filterMap_cons, hFx]
        exact filterMap_dedupKeepFirst_congr xs (x :: s₁) s₂ fun y hy => by
          simp [List.mem_cons, hne y hy, hmem y hy]
      · simp only [dedupKeepFirst, if_neg h1, if_neg h2, List.filterMap_cons, hFx]
        exact filterMap_dedupKeepFirst_congr xs (x :: s₁) (x :: s₂) hext

theorem includeFold_snd (store : Store) :
    ∀ (inc : List SubmissionId) (seen : List SubmissionId) (subs : List OutRec),
      (inc.foldl (includeStep store) (seen, subs)).2
        = ((dedupKeepFirst seen inc).filterMap
            (fun sid => (Store.get store sid).map projectOut)).reverse ++ subs
  | [], _, _ => rfl
  | x :: xs, seen, subs => by
    simp only [List.foldl_cons]
    by_cases h1 : x ∈ seen
    · rw [show includeStep store (seen, subs) x = (seen, subs) from by
        simp [includeStep, h1]]
      rw [includeFold_snd store xs seen subs]
      simp only [dedupKeepFirst, if_pos h1]
    · cases hget : Store.get store x with
      | none =>
        rw [show includeStep store (seen, subs) x = (seen, subs) from by
          simp [includeStep, h1, hget]]
        rw [includeFold_snd store xs seen subs]
        simp only [dedupKeepFirst, if_neg h1, List.filterMap_cons, hget]
        exact congrArg (fun l => List.reverse l ++ subs)
          (filterMap_dedupKeepFirst_congr xs seen (x :: seen) fun y hy => by
            have hne : ¬y = x := by
              intro hyx
              rw [hyx] at hy
              simp [hget] at hy
            simp [List.mem_cons, hne])
      | some r =>
        rw [show includeStep store (seen, subs) x
            = (x :: seen, projectOut r :: subs) from by
          simp [includeStep, h1, hget]]
        rw [includeFold_snd store xs (x :: seen) (projectOut r :: subs)]
        simp [dedupKeepFirst, if_neg h1, List.filterMap_cons, hget]

/-! ### Concrete fixtures used by the closed witness theorems -/

/-- A pending record as `create_submission_record` builds it. -/
def demoRec : Record :=
  { name := "Jane Doe", firstName := "Jane", debt := 120, story := "tuition",
    email := "Jane.Doe@Example.com", emailClean := "janedoe@example.com",
    createdDate := 1, tokenVerify := some "tv1", tokenDelete := some "td1",
    verifiedDate := none }

/-- A verified record (published, `tokenVerify` already null). -/
def demoVerRec : Record :=
  { name := "Ada L", firstName := "Ada", debt := 30, story := "books",
    email := "ada@x.com", emailClean := "ada@x.com", createdDate := 2,
    tokenVerify := none, tokenDelete := some "td2", verifiedDate := some 5 }

/-- A store holding one pending record under id `s1`. -/
def demoStore : Store := [("s1", demoRec)]

/-- A store holding one verified record `v1` and one pending record `p1`. -/
def demoStore2 : Store := [("v1", demoVerRec), ("p1", demoRec)]

/-! ### Claim theorems -/

/-- C1: for a stored record whose `tokenVerify` is non-null, presenting that
token verifies the record: the response is a 302 whose `Location` is
`UI_HOST?verified=<id>`, the store afterwards holds the record with
`tokenVerify` null and `verifiedDate` set to the current time (visible to an
immediately following read), and a second presentation of any token — the same
one in particular — yields the idempotent "already verified" 302 to the same
location with no mutation and no token comparison. -/
theorem verify_token_lifecycle (ui : String) (store : Store) (id tok : String)
    (r : Record) (now now2 : Nat) (hid : id ≠ "") (htok : tok ≠ "")
    (hget : Store.get store id = some r) (hTV : r.tokenVerify = some tok) :
    verify_submission ui store (some id) (some tok) now
      = ({ statusCode := 302, location := some (ui ++ "?verified=" ++ id),
           body := "Your story has been verified! Thank you :)" },
         Store.update store id fun x =>
           { x with tokenVerify := none, verifiedDate := some now }) ∧
    Store.get (verify_submission ui store (some id) (some tok) now).2 id
      = some { r with tokenVerify := none, verifiedDate := some now } ∧
    ∀ t2 : String, t2 ≠ "" →
      verify_submission ui (verify_submission ui store (some id) (some tok) now).2
          (some id) (some t2) now2
        = ({ statusCode := 302, location := some (ui ++ "?verified=" ++ id),
             body := "Your story has already been verified! Thank you :)" },
           (verify_submission ui store (some id) (some tok) now).2) := by
  have h1 : verify_submission ui store (some id) (some tok) now
      = ({ statusCode := 302, location := some (ui ++ "?verified=" ++ id),
           body := "Your story has been verified! Thank you :)" },
         Store.update store id fun x =>
           { x with tokenVerify := none, verifiedDate := some now }) := by
    simp [verify_submission, pyFalsy, String.isEmpty_iff, hid, htok, hget, hTV]
  have h2 : Store.get (verify_submission ui store (some id) (some tok) now).2 id
      = some { r with tokenVerify := none, verifiedDate := some now } := by
    rw [h1]
    simp [Store.get_update_self, hget]
  refine ⟨h1, h2, fun t2 ht2 => ?_⟩
  generalize hS : (verify_submission ui store (some id) (some tok) now).2 = store2 at h2 ⊢
  simp [verify_submission, pyFalsy, String.isEmpty_iff, hid, ht2, h2]

/-- C1 witness: the lifecycle theorem at a concrete store. -/
theorem verify_token_lifecycle_witness :
    verify_submission "u" demoStore (some "s1") (some "tv1") 7
      = ({ statusCode := 302, location := some ("u" ++ "?verified=" ++ "s1"),
           body := "Your story has been verified! Thank you :)" },
         Store.update demoStore "s1" fun x =>
           { x with tokenVerify := none, verifiedDate := some 7 }) ∧
    Store.get (verify_submission "u" demoStore (some "s1") (some "tv1") 7).2 "s1"
      = some { demoRec with tokenVerify := none, verifiedDate := some 7 } ∧
    verify_submission "u"
        (verify_submission "u" demoStore (some "s1") (some "tv1") 7).2
        (some "s1") (some "tv1") 9
      = ({ statusCode := 302, location := some ("u" ++ "?verified=" ++ "s1"),
           body := "Your story has already been verified! Thank you :)" },
         (verify_submission "u" demoStore (some "s1") (some "tv1") 7).2) := by
  obtain ⟨h1, h2, h3⟩ := verify_token_lifecycle "u" demoStore "s1" "tv1" demoRec 7 9
    (by decide) (by decide) (by decide) (by decide)
  exact ⟨h1, h2, h3 "tv1" (by decide)⟩

/-- C2 counterexample: after a first delete with the correct token physically
removes the record, a second delete with the same token is answered by the
404 not-found response, not by any 2xx "success response class" answer. -/
theorem delete_second_attempt_counterexample :
    (delete_submission demoStore (some "s1") (some "td1")).1.statusCode = 200 ∧
    (delete_submission (delete_submission demoStore (some "s1") (some "td1")).2
        (some "s1") (some "td1")).1.statusCode = 404 ∧
    ¬(delete_submission (delete_submission demoStore (some "s1") (some "td1")).2
        (some "s1") (some "td1")).1.statusCode / 100 = 2 := by
  decide

/-- C2 (amended): a delete request with the correct stored `tokenDelete`
physically removes the record, so that a subsequent get-by-id fails not-found;
a second delete attempt with any token — the same one in particular — is
answered by the idempotent 404 not-found response whose body notes the record
"may already be deleted", with no mutation and no token comparison. -/
theorem delete_lifecycle (store : Store) (id tok : String) (r : Record)
    (hid : id ≠ "") (htok : tok ≠ "")
    (hget : Store.get store id = some r) (hTD : r.tokenDelete = some tok) :
    delete_submission store (some id) (some tok)
      = ({ statusCode := 200, location := none,
           body := "Your story has been deleted!" }, Store.erase store id) ∧
    Store.get (delete_submission store (some id) (some tok)).2 id = none ∧
    ∀ t2 : String, t2 ≠ "" →
      delete_submission (delete_submission store (some id) (some tok)).2
          (some id) (some t2)
        = ({ statusCode := 404, location := none,
             body := "Story not found. Perhaps it has already been deleted!" },
           (delete_submission store (some id) (some tok)).2) := by
  have h1 : delete_submission store (some id) (some tok)
      = ({ statusCode := 200, location := none,
           body := "Your story has been deleted!" }, Store.erase store id) := by
    simp [delete_submission, pyFalsy, String.isEmpty_iff, hid, htok, hget, hTD]
  have h2 : Store.get (delete_submission store (some id) (some tok)).2 id = none := by
    rw [h1]
    exact Store.get_erase_self store id
  refine ⟨h1, h2, fun t2 ht2 => ?_⟩
  generalize hS : (delete_submission store (some id) (some tok)).2 = store2 at h2 ⊢
  simp [delete_submission, pyFalsy, String.isEmpty_iff, hid, ht2, h2]

/-- C2 witness: the amended delete lifecycle at a concrete store. -/
theorem delete_lifecycle_witness :
    delete_submission demoStore (some "s1") (some "td1")
      = ({ statusCode := 200, location := none,
           body := "Your story has been deleted!" }, Store.erase demoStore "s1") ∧
    Store.get (delete_submission demoStore (some "s1") (some "td1")).2 "s1" = none ∧
    delete_submission (delete_submission demoStore (some "s1") (some "td1")).2
        (some "s1") (some "td1")
      = ({ statusCode := 404, location := none,
           body := "Story not found. Perhaps it has already been deleted!" },
         (delete_submission demoStore (some "s1") (some "td1")).2) := by
  obtain ⟨h1, h2, h3⟩ := delete_lifecycle demoStore "s1" "td1" demoRec
    (by decide) (by decide) (by decide) (by decide)
  exact ⟨h1, h2, h3 "td1" (by decide)⟩

/-- C3 counterexample: the pre-verified creation entry point performs no
existence check — a creation attempt whose `emailClean`
(`clean_email "JaneDoe@example.com" = "janedoe@example.com"`) matches the
existing non-deleted record of `demoStore` is not rejected but written, after
which two non-deleted records share that `emailClean`. -/
theorem preverified_duplicate_counterexample :
    Store.countEmail demoStore "janedoe@example.com" = 1 ∧
    (post_verified_submission demoStore
        { name := "Jane Doe", debt := 1, story := "again",
          email := "JaneDoe@example.com" } "tv9" "td9" 7 "s2").map
        (fun p => Store.countEmail p.2 "janedoe@example.com")
      = some 2 := by
  decide

/-- C3 (amended): only the pending creation entry point enforces the
duplicate-email rule — a pending creation whose `emailClean` matches an
existing non-deleted record is rejected by the existence check and writes
nothing, while the pre-verified entry point unconditionally appends its record
to the store, even when an existing record shares the `emailClean`. -/
theorem dedup_pending_entry_only (store : Store) (sub : Submission)
    (tokV tokD : String) (now : Nat) (fid : SubmissionId) (rec : Record)
    (hrec : create_submission_record sub tokV tokD now = some rec) :
    (Store.countEmail store rec.emailClean ≠ 0 →
      post_submission store sub tokV tokD now fid
        = some ({ statusCode := 409, location := none,
                  body := "Your story has already been submitted. Please check your email :)" },
          store, false)) ∧
    post_verified_submission store sub tokV tokD now fid
      = some ({ statusCode := 200, location := none, body := jsonIdBody fid },
          store ++ [(fid, mark_verified rec now)]) := by
  constructor
  · intro hdup
    simp [post_submission, hrec, hdup]
  · simp [post_verified_submission, hrec]

/-- C3 witness: the amended claim at a concrete duplicate submission. -/
theorem dedup_pending_entry_only_witness :
    post_submission demoStore
        { name := "Jane Doe", debt := 1, story := "again",
          email := "JaneDoe@example.com" } "tv9" "td9" 7 "s2"
      = some ({ statusCode := 409, location := none,
                  body := "Your story has already been submitted. Please check your email :)" },
        demoStore, false) ∧
    post_verified_submission demoStore
        { name := "Jane Doe", debt := 1, story := "again",
          email := "JaneDoe@example.com" } "tv9" "td9" 7 "s2"
      = some ({ statusCode := 200, location := none, body := jsonIdBody "s2" },
          demoStore ++ [("s2",
            mark_verified
              { name := "Jane Doe", firstName := "Jane", debt := 1,
                story := "again", email := "JaneDoe@example.com",
                emailClean := "janedoe@example.com", createdDate := 7,
                tokenVerify := some "tv9", tokenDelete := some "td9",
                verifiedDate := none } 7)]) := by
  obtain ⟨h1, h2⟩ := dedup_pending_entry_only demoStore
    { name := "Jane Doe", debt := 1, story := "again",
      email := "JaneDoe@example.com" } "tv9" "td9" 7 "s2"
    { name := "Jane Doe", firstName := "Jane", debt := 1, story := "again",
      email := "JaneDoe@example.com", emailClean := "janedoe@example.com",
      createdDate := 7, tokenVerify := some "tv9", tokenDelete := some "td9",
      verifiedDate := none } (by decide)
  exact ⟨h1 (by decide), h2⟩

/-- C4: a pending-submission create that finds at least one existing record
whose `emailClean` exactly matches the new submission's normalized email
responds 409 with the user-facing duplicate message, writes nothing to the
store and sends no mail. -/
theorem post_submission_duplicate_conflict (store : Store) (sub : Submission)
    (tokV tokD : String) (now : Nat) (fid : SubmissionId) (rec : Record)
    (hrec : create_submission_record sub tokV tokD now = some rec)
    (hdup : Store.countEmail store rec.emailClean ≠ 0) :
    post_submission store sub tokV tokD now fid
      = some ({ statusCode := 409, location := none,
                  body := "Your story has already been submitted. Please check your email :)" },
        store, false) := by
  simp [post_submission, hrec, hdup]

/-- C4 witness: the duplicate conflict at a concrete store. -/
theorem post_submission_duplicate_conflict_witness :
    post_submission demoStore
        { name := "J D", debt := 2, story := "x", email := "jane.doe@Example.com" }
        "a" "b" 3 "s7"
      = some ({ statusCode := 409, location := none,
                  body := "Your story has already been submitted. Please check your email :)" },
        demoStore, false) :=
  post_submission_duplicate_conflict demoStore
    { name := "J D", debt := 2, story := "x", email := "jane.doe@Example.com" }
    "a" "b" 3 "s7"
    { name := "J D", firstName := "J", debt := 2, story := "x",
      email := "jane.doe@Example.com", emailClean := "janedoe@example.com",
      createdDate := 3, tokenVerify := some "a", tokenDelete := some "b",
      verifiedDate := none } (by decide) (by decide)

/-- C5: email normalization is idempotent — applying `clean_email` to its own
output returns that output unchanged — and case/alias-insensitive on the
spec's examples: `clean_email "A.B+x@D.com" = clean_email "ab@d.com"
= "ab@d.com"`. -/
theorem clean_email_idempotent :
    (∀ e : String, (clean_email e).bind clean_email = clean_email e) ∧
    clean_email "A.B+x@D.com" = some "ab@d.com" ∧
    clean_email "ab@d.com" = some "ab@d.com" := by
  refine ⟨fun e => ?_, by decide, by decide⟩
  cases h : clean_email e with
  | none => rfl
  | some r => simpa using clean_email_idem h

/-- C6: for a record pending for an action (stored token non-null, hence a
generated non-empty token), presenting a different token yields the 403
response whose message echoes the presented token, and leaves the store —
hence the record — unchanged, for the verify and the delete action alike. -/
theorem wrong_token_forbidden (ui : String) (store : Store) (id t : String)
    (r : Record) (now : Nat) (hid : id ≠ "") (ht : t ≠ "")
    (hget : Store.get store id = some r) :
    (∀ vt : String, r.tokenVerify = some vt → vt ≠ "" → t ≠ vt →
      verify_submission ui store (some id) (some t) now
        = ({ statusCode := 403, location := none,
             body := "Token: " ++ t ++ " did not match" }, store)) ∧
    (∀ dt : String, r.tokenDelete = some dt → dt ≠ "" → t ≠ dt →
      delete_submission store (some id) (some t)
        = ({ statusCode := 403, location := none,
             body := "Token: " ++ t ++ " did not match" }, store)) := by
  constructor
  · intro vt hvt hvtne htne
    simp [verify_submission, pyFalsy, String.isEmpty_iff, hid, ht, hget, hvt,
      hvtne, htne]
  · intro dt hdt hdtne htne
    simp [delete_submission, pyFalsy, String.isEmpty_iff, hid, ht, hget, hdt,
      hdtne, htne]

/-- C6 witness: a mismatched token against the concrete pending record. -/
theorem wrong_token_forbidden_witness :
    verify_submission "u" demoStore (some "s1") (some "bad") 7
      = ({ statusCode := 403, location := none,
           body := "Token: " ++ "bad" ++ " did not match" }, demoStore) ∧
    delete_submission demoStore (some "s1") (some "bad")
      = ({ statusCode := 403, location := none,
           body := "Token: " ++ "bad" ++ " did not match" }, demoStore) := by
  obtain ⟨h1, h2⟩ := wrong_token_forbidden "u" demoStore "s1" "bad" demoRec 7
    (by decide) (by decide) (by decide)
  exact ⟨h1 "tv1" (by decide) (by decide) (by decide),
         h2 "td1" (by decide) (by decide) (by decide)⟩

/-- C7: with a non-empty `include` parameter, the listing equals: the comma
list truncated to its first 3 ids; of these, the ids not already in the
windowed page (and not repeated earlier in the list) looked up by id, silently
dropping the ones not found; the found ones projected to the four output
fields and each inserted at the front — so the last processed ends up first
(the `.reverse`) — ahead of the windowed page. -/
theorem get_submissions_include_override (store : Store)
    (limitQ fromQ : Option String) (incS : String) (h : incS.toList ≠ []) :
    (get_submissions store limitQ fromQ (some incS)).submissions =
      ((dedupKeepFirst ((searchPage store limitQ fromQ).map fun p => p.1)
          (((splitOnChar ',' incS.toList).map String.mk).take 3)).filterMap
        (fun sid => (Store.get store sid).map projectOut)).reverse
      ++ (searchPage store limitQ fromQ).map fun p => projectOut p.2 := by
  have hinc : parseInclude (some incS)
      = ((splitOnChar ',' incS.toList).map String.mk).take 3 := by
    unfold parseInclude
    exact if_neg (by simpa [List.isEmpty_iff] using h)
  simp only [get_submissions, hinc]
  exact includeFold_snd store _ _ _

/-- C7 witness: a 4-id `include` list against a store with one verified and
one pending record: the 4th id is truncated away, the unknown id `zz` is
skipped, `v1` (already in the page) is not duplicated, and the pinned pending
record `p1` ends up first. -/
theorem get_submissions_include_override_witness :
    (get_submissions demoStore2 none none (some "p1,zz,v1,x4")).submissions
      = ((dedupKeepFirst ((searchPage demoStore2 none none).map fun p => p.1)
            (((splitOnChar ',' ("p1,zz,v1,x4").toList).map String.mk).take 3)).filterMap
          (fun sid => (Store.get demoStore2 sid).map projectOut)).reverse
        ++ (searchPage demoStore2 none none).map (fun p => projectOut p.2) ∧
    (get_submissions demoStore2 none none (some "p1,zz,v1,x4")).submissions
      = [projectOut demoRec, projectOut demoVerRec] :=
  ⟨get_submissions_include_override demoStore2 none none "p1,zz,v1,x4" (by decide),
   by decide⟩

/-- C8: a `limit` that is absent, unparsable or outside the exclusive range
0–200 falls back to the default 90; a `from` that is absent, unparsable or
outside the exclusive range 0–9600 falls back to the default 0; in particular
`limit=0`, `limit=500` give 90 and `from=-1` gives 0; and every listing
request is answered 200, never with an error response. -/
theorem pagination_defaults :
    (∀ q : Option String,
      (∀ n : Int, q.bind pyInt? = some n → ¬(0 < n ∧ n < 200)) →
      parse_limit q = 90) ∧
    (∀ q : Option String,
      (∀ n : Int, q.bind pyInt? = some n → ¬(0 < n ∧ n < 9600)) →
      parse_from q = 0) ∧
    parse_limit (some "0") = 90 ∧ parse_limit (some "500") = 90 ∧
    parse_from (some "-1") = 0 ∧ parse_limit none = 90 ∧ parse_from none = 0 ∧
    ∀ (store : Store) (limitQ fromQ incQ : Option String),
      (get_submissions store limitQ fromQ incQ).statusCode = 200 := by
  refine ⟨?_, ?_, by decide, by decide, by decide, by decide, by decide, ?_⟩
  · intro q hq
    unfold parse_limit
    cases hb : q.bind pyInt? with
    | none => rfl
    | some n => exact if_neg (hq n hb)
  · intro q hq
    unfold parse_from
    cases hb : q.bind pyInt? with
    | none => rfl
    | some n => exact if_neg (hq n hb)
  · intro store limitQ fromQ incQ
    simp [get_submissions]

/-- C8 witness: the fallback theorem applied at concrete query values. -/
theorem pagination_defaults_witness :
    parse_limit (some "xyz") = 90 ∧ parse_from (some "12000") = 0 ∧
    parse_limit (some "0") = 90 ∧
    (get_submissions demoStore2 (some "0") (some "-1") none).statusCode = 200 := by
  refine ⟨pagination_defaults.1 (some "xyz") ?_,
    pagination_defaults.2.1 (some "12000") ?_,
    pagination_defaults.2.2.1,
    pagination_defaults.2.2.2.2.2.2.2 demoStore2 (some "0") (some "-1") none⟩
  · intro n hn
    rw [show (some "xyz").bind pyInt? = none from by decide] at hn
    exact Option.noConfusion hn
  · intro n hn
    rw [show (some "12000").bind pyInt? = some 12000 from by decide] at hn
    cases Option.some.inj hn
    decide

/-- C9: for the verify and delete operations alike, a missing (absent or
empty) submission id is rejected 400 "Submission id missing", and, with an id
present, a missing presented token is rejected 400 "Token missing" — in every
case with the store returned unchanged and a response independent of the
store's contents, i.e. before any Document Store access. -/
theorem missing_id_or_token_bad_request (ui : String) (store : Store)
    (tok : Option String) (now : Nat) :
    verify_submission ui store none tok now
      = ({ statusCode := 400, location := none,
           body := "Submission id missing" }, store) ∧
    verify_submission ui store (some "") tok now
      = ({ statusCode := 400, location := none,
           body := "Submission id missing" }, store) ∧
    delete_submission store none tok
      = ({ statusCode := 400, location := none,
           body := "Submission id missing" }, store) ∧
    delete_submission store (some "") tok
      = ({ statusCode := 400, location := none,
           body := "Submission id missing" }, store) ∧
    ∀ id : String, id ≠ "" →
      verify_submission ui store (some id) none now
        = ({ statusCode := 400, location := none,
             body := "Token missing" }, store) ∧
      verify_submission ui store (some id) (some "") now
        = ({ statusCode := 400, location := none,
             body := "Token missing" }, store) ∧
      delete_submission store (some id) none
        = ({ statusCode := 400, location := none,
             body := "Token missing" }, store) ∧
      delete_submission store (some id) (some "")
        = ({ statusCode := 400, location := none,
             body := "Token missing" }, store) := by
  refine ⟨by simp [verify_submission, pyFalsy, String.isEmpty_iff],
    by simp [verify_submission, pyFalsy, String.isEmpty_iff],
    by simp [delete_submission, pyFalsy, String.isEmpty_iff],
    by simp [delete_submission, pyFalsy, String.isEmpty_iff],
    fun id hid => ⟨?_, ?_, ?_, ?_⟩⟩ <;>
    simp [verify_submission, delete_submission, pyFalsy, String.isEmpty_iff, hid]

/-- C9 witness: missing id and missing token at a concrete store. -/
theorem missing_id_or_token_bad_request_witness :
    verify_submission "u" demoStore none (some "t") 0
      = ({ statusCode := 400, location := none,
           body := "Submission id missing" }, demoStore) ∧
    delete_submission demoStore (some "s1") none
      = ({ statusCode := 400, location := none,
           body := "Token missing" }, demoStore) := by
  obtain ⟨h1, h2, h3, h4, h5⟩ :=
    missing_id_or_token_bad_request "u" demoStore (some "t") 0
  exact ⟨h1, (h5 "s1" (by decide)).2.2.1⟩

/-- C10: `clean_email` — and with it the creation handler — is only defined
for addresses with at least one "@": without one, `post_submission` ends in
the uncaught `IndexError` fault (`none`), not in any 4xx response; and with
more than one "@", everything after the second "@" is silently dropped from
`emailClean`. -/
theorem clean_email_requires_at_sign :
    (∀ (store : Store) (sub : Submission) (tokV tokD : String) (now : Nat)
        (fid : SubmissionId), '@' ∉ sub.email.toList →
      post_submission store sub tokV tokD now fid = none) ∧
    ∀ (e : String) (p0 p1 rest : List Char), '@' ∉ p0 → '@' ∉ p1 →
      e.toList.map Char.toLower = p0 ++ '@' :: (p1 ++ '@' :: rest) →
      clean_email e = some
        (String.mk (((p0.filter (· != '.')).takeWhile (· != '+')) ++ '@' :: p1)) := by
  constructor
  · intro store sub tokV tokD now fid hat
    have hatl : '@' ∉ sub.email.toList.map Char.toLower := by
      intro hmem
      rcases List.mem_map.1 hmem with ⟨d, hd, hde⟩
      exact hat (toLower_eq_at_iff.1 hde ▸ hd)
    have hnone : clean_email sub.email = none := by
      unfold clean_email
      rw [splitOnChar_eq_single hatl]
    simp [post_submission, create_submission_record, hnone]
  · intro e p0 p1 rest h0 h1 he
    unfold clean_email
    rw [he, splitOnChar_append _ h0, splitOnChar_append _ h1]

/-- C10 witness: an address without "@" faults the create handler; the part
after the second "@" of `a@b@c` is dropped. -/
theorem clean_email_requires_at_sign_witness :
    post_submission demoStore
        { name := "N N", debt := 1, story := "s", email := "noatsign" }
        "a" "b" 0 "s9" = none ∧
    clean_email "a@b@c" = some "a@b" := by
  constructor
  · exact clean_email_requires_at_sign.1 demoStore
      { name := "N N", debt := 1, story := "s", email := "noatsign" }
      "a" "b" 0 "s9" (by decide)
  · have h := clean_email_requires_at_sign.2 "a@b@c" ['a'] ['b'] ['c']
      (by decide) (by decide) (by decide)
    exact h.trans (by decide)

end TwoCent
